import Mathlib

/-!
Verification development for the BOKAKA badge firmware.

The definitions below are a shallow embedding of the firmware sources:

* `src/firmware/include/storage.h`, `src/firmware/src/storage.cpp`
  (persistent store: CRC-protected image, full save, the two fast-save
  paths, link bookkeeping, secret-key handling);
* `src/firmware/src/usb_serial.cpp` (serial command processor:
  `PROVISION_KEY`, `SIGN_STATE`);
* `src/firmware/include/tap_link.h`, `src/firmware/src/tap_link.cpp`
  (tap-link detection state machine, wired-AND negotiation bit race,
  master command exchange).

Machine integers are modelled as `Nat` with explicit `% 2^w` where the
source can overflow.  Byte buffers are `List Nat` with every element
`< 256`.  The non-volatile memory (NVM) is modelled at field
granularity: every write the source performs covers a whole field at an
`offsetof`-computed offset, so a record of the same shape as the stored
image is an exact model of the byte region.  The HAL (line level,
microsecond clock) is modelled as explicit environment parameters.
-/

namespace Bokaka

/-! ## Little-endian byte encodings -/

/-- Two little-endian bytes of a `u16` value. -/
def le2 (n : Nat) : List Nat := [n % 256, n / 256 % 256]

/-- Four little-endian bytes of a `u32` value. -/
def le4 (n : Nat) : List Nat :=
  [n % 256, n / 256 % 256, n / 2 ^ 16 % 256, n / 2 ^ 24 % 256]

/-! ## CRC-32 (`Storage::calcCrc32`, storage.cpp)

The source delegates to the STM32L0 CRC peripheral
(`HAL_CRC_Calculate`), which in its default configuration implements
CRC-32/MPEG-2: polynomial `0x04C11DB7`, initial value `0xFFFFFFFF`, no
reflection, no final xor, fed one 32-bit little-endian word at a time. -/

/-- One shift step of the 32-bit CRC register (polynomial
`0x04C11DB7`): shift left, drop to 32 bits, xor the polynomial when the
top bit was set. -/
def crcStep (c : Nat) : Nat :=
  if 0x80000000 ≤ c then (c * 2 % 0x100000000) ^^^ 0x04C11DB7
  else c * 2 % 0x100000000

/-- Evaluation-order helper for kernel computation: both branches are
the same application, so `strictApp k n = k n` definitionally by cases;
the guard makes kernel reduction evaluate `n` to a numeral before `k`
runs, keeping the reduction stack bounded on long CRC chains. -/
def strictApp (k : Nat → Nat) (n : Nat) : Nat :=
  if 0 < n + 1 then k n else k n

/-- Iterate `crcStep` (strictly). -/
def crcIter : Nat → Nat → Nat
  | 0, c => c
  | fuel + 1, c => strictApp (crcIter fuel) (crcStep c)

/-- Feed one 32-bit word into the CRC register: xor it in, then shift
32 times. -/
def crcFeed (c w : Nat) : Nat := crcIter 32 (c ^^^ w)

/-- Run the CRC register over a word sequence (strictly). -/
def crcWords : List Nat → Nat → Nat
  | [], c => c
  | w :: ws, c => strictApp (crcWords ws) (crcFeed c w)

/-- Group a byte list into 32-bit little-endian words (the payload is
4-byte aligned, enforced by `static_assert` in storage.h). -/
def toWords : List Nat → List Nat
  | b0 :: b1 :: b2 :: b3 :: rest =>
      (b0 + b1 * 256 + b2 * 2 ^ 16 + b3 * 2 ^ 24) :: toWords rest
  | _ => []

/-- Model of `Storage::calcCrc32`: returns 0 when the length is not a
multiple of 4 (the source's defensive early return), otherwise the
CRC-32/MPEG-2 of the word sequence starting from `0xFFFFFFFF`. -/
def calcCrc32 (bytes : List Nat) : Nat :=
  if bytes.length % 4 ≠ 0 then 0
  else crcWords (toWords bytes) 0xFFFFFFFF

/-! ## Persisted image (storage.h) -/

/-- `DEVICE_UID_LEN` (device_id.h): 12-byte device identifier. -/
def DEVICE_UID_LEN : Nat := 12

/-- `STORAGE_MAGIC` = "BOKA". -/
def STORAGE_MAGIC : Nat := 0x424F4B41

/-- `STORAGE_VERSION`. -/
def STORAGE_VERSION : Nat := 1

/-- `PersistPayloadV1::MAX_LINKS`. -/
def MAX_LINKS : Nat := 64

/-- Model of `struct PersistPayloadV1` (storage.h).  `links` always
holds `MAX_LINKS` slots of 12 bytes; `reserved32` holds the 16 reserved
`u32` words. -/
structure PersistPayloadV1 where
  selfId : List Nat
  totalTapCount : Nat
  linkCount : Nat
  keyVersion : Nat
  reserved8 : Nat
  links : List (List Nat)
  secretKey : List Nat
  reserved32 : List Nat
  deriving Repr, DecidableEq

/-- Model of `struct PersistHeader`. -/
structure PersistHeader where
  magic : Nat
  version : Nat
  length : Nat
  crc32 : Nat
  deriving Repr, DecidableEq

/-- Model of `struct PersistImageV1`. -/
structure PersistImageV1 where
  header : PersistHeader
  payload : PersistPayloadV1
  deriving Repr, DecidableEq

/-- Serialized byte sequence of `PersistPayloadV1`, following the packed
layout of storage.h (also documented at offsets `0x0C`..`0x340` of the
spec's image table): `selfId (12) ‖ totalTapCount (u32 LE) ‖ linkCount
(u16 LE) ‖ keyVersion ‖ reserved8 ‖ 64×12-byte links ‖ 32-byte
secretKey ‖ 16 reserved u32 words`. -/
def payloadBytes (p : PersistPayloadV1) : List Nat :=
  p.selfId ++ le4 p.totalTapCount ++ le2 p.linkCount ++
    [p.keyVersion % 256, p.reserved8 % 256] ++ p.links.flatten ++
    p.secretKey ++ (p.reserved32.map le4).flatten

/-- `sizeof(PersistPayloadV1)` = 884 bytes. -/
def PAYLOAD_SIZE : Nat := 884

/-- The all-zero payload produced by `memset(&_image, 0, ...)`. -/
def zeroPayload : PersistPayloadV1 where
  selfId := List.replicate DEVICE_UID_LEN 0
  totalTapCount := 0
  linkCount := 0
  keyVersion := 0
  reserved8 := 0
  links := List.replicate MAX_LINKS (List.replicate DEVICE_UID_LEN 0)
  secretKey := List.replicate 32 0
  reserved32 := List.replicate 16 0

/-- Well-formed payload: every buffer has its declared size and every
byte is below 256.  This is the C type-level invariant of the packed
struct. -/
def PayloadWF (p : PersistPayloadV1) : Prop :=
  p.selfId.length = DEVICE_UID_LEN ∧ (∀ b ∈ p.selfId, b < 256) ∧
  p.totalTapCount < 2 ^ 32 ∧ p.linkCount < 2 ^ 16 ∧
  p.keyVersion < 256 ∧ p.reserved8 < 256 ∧
  p.links.length = MAX_LINKS ∧
  (∀ l ∈ p.links, l.length = DEVICE_UID_LEN ∧ ∀ b ∈ l, b < 256) ∧
  p.secretKey.length = 32 ∧ (∀ b ∈ p.secretKey, b < 256) ∧
  p.reserved32.length = 16

/-! ## Store state and operations (storage.cpp)

The NVM image region is modelled at field granularity as a second
`PersistImageV1`: every NVM write in the source covers a whole field
(`writeToNvm` writes the entire struct; the fast saves write
`sizeof(field)` bytes at `offsetof`-computed offsets), so this is an
exact model of the byte region. -/

/-- In-memory mirror, dirty flag, fast-save bookkeeping and the NVM
region of the `Storage` class. -/
structure StorageState where
  image : PersistImageV1
  nvm : PersistImageV1
  dirty : Bool
  lastLinkIndex : Nat
  linkCountChanged : Bool
  deriving Repr, DecidableEq

namespace Storage

/-- `Storage::markDirty`. -/
def markDirty (s : StorageState) : StorageState := { s with dirty := true }

/-- `Storage::saveNow`: stamp magic/version/length, recompute the CRC
over the in-memory payload, write the full container
(`writeToNvm`, which always reports success), clear the dirty flag. -/
def saveNow (s : StorageState) : StorageState :=
  let image :=
    { s.image with
      header :=
        { magic := STORAGE_MAGIC, version := STORAGE_VERSION,
          length := PAYLOAD_SIZE,
          crc32 := calcCrc32 (payloadBytes s.image.payload) } }
  { s with image := image, nvm := image, dirty := false }

/-- `Storage::hasLink`: linear scan of the first `linkCount` slots,
capped at `MAX_LINKS` in case the count wrapped. -/
def hasLink (p : PersistPayloadV1) (peerId : List Nat) : Bool :=
  let count := if p.linkCount > MAX_LINKS then MAX_LINKS else p.linkCount
  (p.links.take count).any (fun l => l == peerId)

/-- `Storage::addLink`: reject duplicates; otherwise insert at index
`linkCount` (modulo `MAX_LINKS` on overflow, leaving the count
unchanged), increment the count when below the cap, remember the
touched slot for `saveLinkOnly`, mark dirty.  Returns `true` iff the
link was new. -/
def addLink (s : StorageState) (peerId : List Nat) : StorageState × Bool :=
  if hasLink s.image.payload peerId then (s, false)
  else
    let p := s.image.payload
    let idx0 := p.linkCount
    let (idx, p, changed) :=
      if idx0 ≥ MAX_LINKS then (idx0 % MAX_LINKS, p, false)
      else (idx0, { p with linkCount := p.linkCount + 1 }, true)
    let p := { p with links := p.links.set idx peerId }
    (markDirty { s with
        image := { s.image with payload := p },
        lastLinkIndex := idx, linkCountChanged := changed }, true)

/-- `Storage::incrementTapCount` (`totalTapCount` is a `u32`). -/
def incrementTapCount (s : StorageState) : StorageState :=
  markDirty { s with
    image := { s.image with payload :=
      { s.image.payload with
        totalTapCount := (s.image.payload.totalTapCount + 1) % 2 ^ 32 } } }

/-- `Storage::clearAll`: save `selfId`, zero the whole payload, restore
`selfId`, mark dirty, full save. -/
def clearAll (s : StorageState) : StorageState :=
  let p := { zeroPayload with selfId := s.image.payload.selfId }
  saveNow (markDirty { s with image := { s.image with payload := p } })

/-- `Storage::hasSecretKey`: provisioned iff `keyVersion ≠ 0` and at
least one key byte is nonzero. -/
def hasSecretKey (p : PersistPayloadV1) : Bool :=
  if p.keyVersion == 0 then false else p.secretKey.any (fun b => b != 0)

/-- `Storage::setSecretKey`: store version and key, mark dirty,
immediate full save. -/
def setSecretKey (s : StorageState) (version : Nat) (key : List Nat) :
    StorageState :=
  saveNow (markDirty { s with
    image := { s.image with payload :=
      { s.image.payload with keyVersion := version, secretKey := key } } })

/-- `Storage::saveTapCountOnly`: recompute the CRC over the full
in-memory payload, then write only the `totalTapCount` field and the
header `crc32` field of the NVM region, clear the dirty flag. -/
def saveTapCountOnly (s : StorageState) : StorageState :=
  let crc := calcCrc32 (payloadBytes s.image.payload)
  { s with
    image := { s.image with header := { s.image.header with crc32 := crc } },
    nvm :=
      { header := { s.nvm.header with crc32 := crc },
        payload := { s.nvm.payload with
          totalTapCount := s.image.payload.totalTapCount } },
    dirty := false }

/-- `Storage::saveLinkOnly`: recompute the CRC over the full in-memory
payload, write the touched link slot, the `linkCount` field when it was
incremented, and the header `crc32` field of the NVM region; clear the
dirty and `linkCountChanged` flags. -/
def saveLinkOnly (s : StorageState) : StorageState :=
  let crc := calcCrc32 (payloadBytes s.image.payload)
  let nvmPayload :=
    if s.linkCountChanged then
      { s.nvm.payload with linkCount := s.image.payload.linkCount }
    else s.nvm.payload
  let nvmPayload :=
    { nvmPayload with links :=
        (nvmPayload.links.set s.lastLinkIndex
          (s.image.payload.links.getD s.lastLinkIndex [])) }
  { s with
    image := { s.image with header := { s.image.header with crc32 := crc } },
    nvm := { header := { s.nvm.header with crc32 := crc },
             payload := nvmPayload },
    dirty := false, linkCountChanged := false }

/-- Validation performed by `Storage::loadFromNvm`: magic, version,
length and CRC of the stored image must all match. -/
def loadValid (img : PersistImageV1) : Bool :=
  img.header.magic == STORAGE_MAGIC &&
  img.header.version == STORAGE_VERSION &&
  img.header.length == PAYLOAD_SIZE &&
  calcCrc32 (payloadBytes img.payload) == img.header.crc32

/-- `isUidAllZero` (device_id.cpp): all 12 bytes zero. -/
def isUidAllZero (uid : List Nat) : Bool := uid.all (fun b => b == 0)

/-- `Storage::begin`, given the current NVM content and the hardware
UID source.  Invalid image: zero the payload, stamp the header, capture
`selfId` from hardware, compute the CRC, write the container.  Valid
image with all-zero `selfId`: capture `selfId`, mark dirty, save
immediately.  In all cases the dirty flag ends cleared. -/
def begin (nvm0 : PersistImageV1) (uid : List Nat) : StorageState :=
  let s0 : StorageState :=
    { image := nvm0, nvm := nvm0, dirty := false,
      lastLinkIndex := 0, linkCountChanged := false }
  if loadValid nvm0 then
    let s1 :=
      if isUidAllZero nvm0.payload.selfId then
        saveNow (markDirty { s0 with
          image := { nvm0 with payload :=
            { nvm0.payload with selfId := uid } } })
      else s0
    { s1 with dirty := false }
  else
    let p := { zeroPayload with selfId := uid }
    let image : PersistImageV1 :=
      { header := { magic := STORAGE_MAGIC, version := STORAGE_VERSION,
                    length := PAYLOAD_SIZE,
                    crc32 := calcCrc32 (payloadBytes p) },
        payload := p }
    { image := image, nvm := image, dirty := false,
      lastLinkIndex := 0, linkCountChanged := false }

end Storage

/-! ## Serial command processor (usb_serial.cpp)

`cmdProvisionKey` and `cmdSignState` are embedded below.  The
HMAC-SHA256 primitive is the external mbedtls library
(`mbedtls_md_hmac`), not code of this repository, so it enters the
model as an explicit function parameter `hm : key → message → tag`;
everything the repository controls — argument validation, the
canonical message bytes, and which event is emitted — is translated
from the source. -/

/-- `UsbCommandHandler::hexToBytes`'s per-character helper `hexVal`:
value of a hex digit, `-1` when invalid. -/
def hexVal (c : Char) : Int :=
  if '0' ≤ c ∧ c ≤ '9' then (c.toNat : Int) - 48
  else if 'A' ≤ c ∧ c ≤ 'F' then 10 + (c.toNat : Int) - 65
  else if 'a' ≤ c ∧ c ≤ 'f' then 10 + (c.toNat : Int) - 97
  else -1

/-- Pair-wise decoding loop of `UsbCommandHandler::hexToBytes`. -/
def hexPairs : List Char → Option (List Nat)
  | [] => some []
  | c1 :: c2 :: rest =>
      if hexVal c1 < 0 ∨ hexVal c2 < 0 then none
      else (hexPairs rest).map
        (fun bs => (((hexVal c1).toNat <<< 4) ||| (hexVal c2).toNat) :: bs)
  | _ :: [] => none

/-- `UsbCommandHandler::hexToBytes`: fails unless the string has
exactly `2 * outLen` characters, all hex digits. -/
def hexToBytes (hex : List Char) (outLen : Nat) : Option (List Nat) :=
  if hex.length ≠ 2 * outLen then none else hexPairs hex

/-- Events emitted by `cmdProvisionKey` (ack or one of its two error
messages). -/
inductive ProvisionEvent where
  | errInvalidVersion
  | errInvalidKeyHex
  | ack (keyVersion : Nat)
  deriving Repr, DecidableEq

/-- `UsbCommandHandler::cmdProvisionKey`: validate the version range
and the 64-digit key hex, then `Storage::setSecretKey` (which saves
immediately).  The `(uint8_t)version` cast is the `% 256`. -/
def cmdProvisionKey (s : StorageState) (version : Int) (keyHex : List Char) :
    StorageState × ProvisionEvent :=
  if version ≤ 0 ∨ version > 255 then (s, .errInvalidVersion)
  else
    match hexToBytes keyHex 32 with
    | none => (s, .errInvalidKeyHex)
    | some key =>
        (Storage.setSecretKey s (version.toNat % 256) key, .ack version.toNat)

/-- Events emitted by `cmdSignState`: the `SIGNED_STATE` event (with
the fields of the JSON object, device id and tag as raw bytes) or one
of its error events. -/
inductive SignEvent where
  | errNoKey
  | errInvalidNonce
  | errInvalidNonceHex
  | signed (deviceId : List Nat) (nonceHex : List Char)
      (totalTapCount linkCount keyVersion : Nat) (hmac : List Nat)
  deriving Repr, DecidableEq

/-- Message assembled by `cmdSignState` for signing: `selfId (12) ‖
nonce ‖ totalTapCount (u32 LE) ‖ linkCount (u16 LE, clamped at
MAX_LINKS) ‖ the first linkCount 12-byte peer ids`. -/
def buildSignMsg (p : PersistPayloadV1) (nonce : List Nat) : List Nat :=
  let lc := if p.linkCount > MAX_LINKS then MAX_LINKS else p.linkCount
  p.selfId ++ nonce ++ le4 p.totalTapCount ++ le2 lc ++
    (p.links.take lc).flatten

/-- Modelled from the spec's words, for comparison with the source's
`buildSignMsg` (spec §6, signed state byte layout): concatenation in
order of `selfId (12B) ‖ nonce ‖ totalTapCount (u32 LE) ‖ linkCount
(u16 LE) ‖ links[0..linkCount-1].peerId (12 B each)`. -/
def specSignedLayout (p : PersistPayloadV1) (nonce : List Nat) : List Nat :=
  p.selfId ++ nonce ++ le4 p.totalTapCount ++ le2 p.linkCount ++
    (p.links.take p.linkCount).flatten

/-- `UsbCommandHandler::cmdSignState`, parameterized by the HMAC
primitive `hm` (external mbedtls): key check, nonce validation
(nonempty, even, at most 64 hex digits), hex decode, message assembly,
`SIGNED_STATE` event. -/
def cmdSignState (hm : List Nat → List Nat → List Nat)
    (p : PersistPayloadV1) (nonceHex : List Char) : SignEvent :=
  if ¬ Storage.hasSecretKey p then .errNoKey
  else
    let n := nonceHex.length
    if n = 0 ∨ n % 2 ≠ 0 ∨ n > 64 then .errInvalidNonce
    else
      match hexToBytes nonceHex (n / 2) with
      | none => .errInvalidNonceHex
      | some nonce =>
          let lc := if p.linkCount > MAX_LINKS then MAX_LINKS else p.linkCount
          .signed p.selfId nonceHex p.totalTapCount lc p.keyVersion
            (hm p.secretKey (buildSignMsg p nonce))

/-! ## Tap link engine (tap_link.h / tap_link.cpp, EVAL_BOARD_TEST
variant)

The line HAL is modelled as explicit environment data: the sampled
line level per poll call, the peer's drive contribution per
negotiation bit slot (the majority of the three samples), and a
time-indexed line level for byte reception.  The microsecond clock is
threaded explicitly; blocking delays advance it by the delay amount. -/

/-- Timing and protocol constants of tap_link.h. -/
def PRESENCE_PULSE_US : Nat := 2000
/-- `PULSE_INTERVAL_US`. -/
def PULSE_INTERVAL_US : Nat := 50000
/-- `DEBOUNCE_TIME_US`. -/
def DEBOUNCE_TIME_US : Nat := 5000
/-- `NEGOTIATION_BITS`: only the first 32 UID bits take part in the
bit race. -/
def NEGOTIATION_BITS : Nat := 32
/-- `CMD_START_PULSE_US`. -/
def CMD_START_PULSE_US : Nat := 5000
/-- `CMD_TURNAROUND_US`. -/
def CMD_TURNAROUND_US : Nat := 2000
/-- `CMD_BIT_DRIVE_US`. -/
def CMD_BIT_DRIVE_US : Nat := 5000
/-- `CMD_BIT_SAMPLE_US`. -/
def CMD_BIT_SAMPLE_US : Nat := 2500
/-- `CMD_BIT_RECOVERY_US`. -/
def CMD_BIT_RECOVERY_US : Nat := 2000
/-- `MAX_COMMAND_FAILURES`. -/
def MAX_COMMAND_FAILURES : Nat := 3
/-- `SLAVE_IDLE_TIMEOUT_US` (tap_link.h line 181).  The constant is
declared — with the comment "slave disconnects if no command" — but no
code in the repository ever reads it. -/
def SLAVE_IDLE_TIMEOUT_US : Nat := 2000000
/-- `TapResponse::ACK`. -/
def ACK : Nat := 0x06
/-- `TapCommand::CHECK_READY`. -/
def CHECK_READY : Nat := 0x01

/-- `TapLink::elapsedMicros`: elapsed time with `micros()` wrap
handling (`UINT32_MAX - startTime + now + 1` on wrap). -/
def elapsedMicros (now startTime : Nat) : Nat :=
  if startTime ≤ now then now - startTime
  else 0xFFFFFFFF - startTime + now + 1

/-- Negotiation bit `i` of a UID, MSB-first within bytes
(`(_selfId[i / 8] >> (7 - i % 8)) & 1`). -/
def negBit (id : List Nat) (i : Nat) : Bool :=
  (id.getD (i / 8) 0) >>> (7 - i % 8) &&& 1 == 1

/-- Value of the `fuel` UID bits starting at bit `i`, MSB first.  With
`i = 0, fuel = 32` this is the 32-bit big-endian prefix the bit race
compares. -/
def bitsFrom (x : List Nat) : Nat → Nat → Nat
  | _, 0 => 0
  | i, fuel + 1 => (negBit x i).toNat * 2 ^ fuel + bitsFrom x (i + 1) fuel

/-- Value of a UID as a big-endian magnitude (the spec's ordering of
`DeviceId`s). -/
def uidVal (id : List Nat) : Nat := id.foldl (fun acc b => acc * 256 + b) 0

/-- Aligned wired-AND bit race of `TapLink::pollNegotiation`, run for
both devices in lockstep.  At each slot a device still in its loop
(`aIn`/`bIn`) drives LOW iff its own bit is 0; the line is LOW iff
some participant drives; a device concludes master exactly when its
own bit is 1 and the sampled line is LOW, and then leaves the loop
(state `Connected`, so it stops driving bits).  Returns, for each
device, whether it concluded master somewhere in its loop. -/
def raceAux (a b : List Nat) : Nat → Nat → Bool → Bool → Bool × Bool
  | _, 0, _, _ => (false, false)
  | i, fuel + 1, aIn, bIn =>
      let aBit := negBit a i
      let bBit := negBit b i
      let driveA := aIn && !aBit
      let driveB := bIn && !bBit
      let lineLow := driveA || driveB
      let decA := aIn && (aBit && lineLow)
      let decB := bIn && (bBit && lineLow)
      let rest := raceAux a b (i + 1) fuel (aIn && !decA) (bIn && !decB)
      (decA || rest.1, decB || rest.2)

/-- The full `NEGOTIATION_BITS`-slot race from slot 0 with both
devices in their loops. -/
def runRace (a b : List Nat) : Bool × Bool :=
  raceAux a b 0 NEGOTIATION_BITS true true

/-- `TapLink::DetectionState` (EVAL_BOARD_TEST variant). -/
inductive DetectionState where
  | NoConnection
  | Detecting
  | Negotiating
  | Connected
  deriving Repr, DecidableEq

/-- The fields of class `TapLink` used by the EVAL_BOARD_TEST state
machine. -/
structure TapLinkState where
  state : DetectionState
  stateStartTime : Nat
  lastLineChangeTime : Nat
  lastLineState : Bool
  connectionJustDetected : Bool
  negotiationJustCompleted : Bool
  lastPulseTime : Nat
  isPulsing : Bool
  pulseStartTime : Nat
  negotiationBitIndex : Nat
  bitSlotStartTime : Nat
  waitingForSync : Bool
  syncSent : Bool
  randomSeed : Nat
  roleKnown : Bool
  isMaster : Bool
  peerReady : Bool
  lastCommandTime : Nat
  commandFailures : Nat
  deriving Repr, DecidableEq

/-- Environment of one `TapLink::poll` call: `now` is `micros()` at
entry, `line` the level `readLine()` reports, `now2` a later
`micros()` read (inside `sendPresencePulse` or at the end of the
blocking negotiation), `negLow i` the peer-side LOW contribution
sampled in bit slot `i` (majority of the three samples), and
`tieHigh` the level sampled in the tie-breaker slot while we
release. -/
structure PollEnv where
  now : Nat
  line : Bool
  now2 : Nat
  negLow : Nat → Bool
  tieHigh : Bool

/-- `TapLink::startNegotiation`: after the blocking synchronization
handshake (which only drives and samples the line), the state is
`Negotiating` with the bit index and role reset. -/
def startNegotiation (env : PollEnv) (tl : TapLinkState) : TapLinkState :=
  { tl with
    state := .Negotiating, negotiationBitIndex := 0,
    roleKnown := false, isMaster := false,
    bitSlotStartTime := env.now2, waitingForSync := false,
    syncSent := true }

/-- Bit loop of `TapLink::pollNegotiation` from bit index `i` with
`fuel` slots left: conclude master at the first slot whose own bit is
1 while the sampled line is LOW (own drive forces LOW when the own bit
is 0).  Returns the concluding slot, or `none` when the loop runs
out. -/
def negotiationLoop (id : List Nat) (negLow : Nat → Bool) :
    Nat → Nat → Option Nat
  | _, 0 => none
  | i, fuel + 1 =>
      let myBit := negBit id i
      let lineLow := !myBit || negLow i
      if myBit && lineLow then some i
      else negotiationLoop id negLow (i + 1) fuel

/-- Byte sum of the UID (`sum += _selfId[i]`, a `uint32_t`). -/
def uidByteSum (id : List Nat) : Nat := (id.foldl (· + ·) 0) % 2 ^ 32

/-- `TapLink::pollNegotiation`: run the bit loop; when it ends
undecided, run the LCG tie-breaker (own drive forces the sampled level
LOW when the tie bit is 0) and fall back to the UID byte-sum parity;
then enter `Connected` and raise the one-shot completion event. -/
def pollNegotiation (id : List Nat) (env : PollEnv) (tl : TapLinkState) :
    TapLinkState :=
  let fuel := NEGOTIATION_BITS - tl.negotiationBitIndex
  let tl :=
    match negotiationLoop id env.negLow tl.negotiationBitIndex fuel with
    | some i =>
        { tl with
          roleKnown := true, isMaster := true,
          negotiationBitIndex := i + 1 }
    | none =>
        let seed := (tl.randomSeed * 1103515245 + 12345) % 2 ^ 32
        let myTie := seed >>> 16 &&& 1 == 1
        let peerTie := myTie && env.tieHigh
        let master :=
          if myTie && !peerTie then true
          else if !myTie && peerTie then false
          else uidByteSum id % 2 == 1
        { tl with
          randomSeed := seed, roleKnown := true,
          isMaster := master, negotiationBitIndex := NEGOTIATION_BITS }
  { tl with
    state := .Connected, negotiationJustCompleted := true,
    lastPulseTime := env.now2 }

/-- `TapLink::poll` (EVAL_BOARD_TEST variant): finish an ongoing
presence pulse, then record line changes and run the detection state
machine.  The `Connected` case is empty in the source — poll performs
no idle-timeout check there. -/
def poll (id : List Nat) (env : PollEnv) (tl : TapLinkState) :
    TapLinkState :=
  if tl.isPulsing then
    if PRESENCE_PULSE_US ≤ elapsedMicros env.now tl.pulseStartTime then
      { tl with isPulsing := false, lastPulseTime := env.now }
    else tl
  else
    let tl :=
      if env.line ≠ tl.lastLineState then
        { tl with lastLineChangeTime := env.now, lastLineState := env.line }
      else tl
    match tl.state with
    | .NoConnection =>
        if !env.line then
          { tl with state := .Detecting, stateStartTime := env.now }
        else if PULSE_INTERVAL_US ≤ elapsedMicros env.now tl.lastPulseTime
        then { tl with isPulsing := true, pulseStartTime := env.now2 }
        else tl
    | .Detecting =>
        if env.line then
          startNegotiation env { tl with connectionJustDetected := true }
        else if DEBOUNCE_TIME_US ≤ elapsedMicros env.now tl.stateStartTime
        then startNegotiation env { tl with connectionJustDetected := true }
        else tl
    | .Negotiating => pollNegotiation id env tl
    | .Connected => tl

/-- `TapLink::slaveHasCommand`: a slave in `Connected` reports a
pending command iff the line is LOW.  (Neither this nor
`slaveReceiveCommand`/`slaveSendResponse` writes any state-machine
field.) -/
def slaveHasCommand (env : PollEnv) (tl : TapLinkState) : Bool :=
  if !tl.roleKnown || tl.isMaster then false
  else if tl.state ≠ .Connected then false
  else !env.line

/-- Majority vote over the three line samples of a bit slot
(`highCount >= 2`). -/
def majority3 (s1 s2 s3 : Bool) : Bool :=
  (if s1 then 1 else 0) + (if s2 then 1 else 0) + (if s3 then 1 else 0) ≥ 2

/-- Bit loop of `TapLink::receiveByte` over a time-indexed line level:
for each of 8 bits (MSB first) wait to the sample point, take three
samples 100 µs apart, vote, and wait out the slot.  The loop contains
no timeout check and no early exit. -/
def receiveBits (line : Nat → Bool) : Nat → Nat → Nat → Nat × Nat
  | 0, t, acc => (t, acc)
  | k + 1, t, acc =>
      let t1 := t + CMD_BIT_SAMPLE_US
      let bit := majority3 (line t1) (line (t1 + 100)) (line (t1 + 200))
      let acc := acc ||| ((if bit then 1 else 0) <<< k)
      receiveBits line k
        (t1 + 200 + (CMD_BIT_DRIVE_US - CMD_BIT_SAMPLE_US - 200
          + CMD_BIT_RECOVERY_US)) acc

/-- `TapLink::receiveByte`: returns the assembled byte and the success
flag.  The source ignores its `timeoutUs` parameter and ends with
`return true`, so the flag is constantly `true`. -/
def receiveByte (line : Nat → Bool) (t : Nat) : Nat × Nat × Bool :=
  let (t2, b) := receiveBits line 8 t 0
  (t2, b, true)

/-- Time taken by `TapLink::sendByte` (8 bit slots of drive plus
recovery). -/
def sendByteTime (t : Nat) : Nat :=
  t + 8 * (CMD_BIT_DRIVE_US + CMD_BIT_RECOVERY_US)

/-- `TapLink::masterSendCommand` over a time-indexed line level:
START pulse, turnaround, command byte, turnaround, response byte.  On
receive failure: count the failure and, at `MAX_COMMAND_FAILURES`,
drop to `NoConnection` clearing role and readiness.  On success: reset
the failure counter, update `peerReady` from the response for
`CHECK_READY`, and stamp the command time.  Returns the new state,
the response byte (`0 = NONE`) and the time after the exchange. -/
def masterSendCommand (line : Nat → Bool) (tl : TapLinkState)
    (cmd : Nat) (t : Nat) : TapLinkState × Nat × Nat :=
  if !tl.roleKnown || !tl.isMaster then (tl, 0, t)
  else if tl.state ≠ .Connected then (tl, 0, t)
  else
    let t := t + CMD_START_PULSE_US
    let t := t + CMD_TURNAROUND_US
    let t := sendByteTime t
    let t := t + CMD_TURNAROUND_US
    let (t2, resp, ok) := receiveByte line t
    if !ok then
      let f := (tl.commandFailures + 1) % 256
      let tl := { tl with commandFailures := f }
      let tl :=
        if MAX_COMMAND_FAILURES ≤ f then
          { tl with
            state := .NoConnection, roleKnown := false,
            peerReady := false }
        else tl
      (tl, 0, t2)
    else
      let tl := { tl with commandFailures := 0 }
      let tl :=
        if cmd == CHECK_READY then { tl with peerReady := resp == ACK }
        else tl
      ({ tl with lastCommandTime := t2 }, resp, t2)

/-! ## Store operation sequences and concrete demonstration data -/

/-- An image whose header is freshly stamped over its own payload
(the result of `saveNow`'s header stamping). -/
def stampImage (p : PersistPayloadV1) : PersistImageV1 :=
  { header :=
      { magic := STORAGE_MAGIC, version := STORAGE_VERSION,
        length := PAYLOAD_SIZE, crc32 := calcCrc32 (payloadBytes p) },
    payload := p }

/-- The mutating and saving operations of the `Storage` public API. -/
inductive StoreOp where
  | addLink (peerId : List Nat)
  | incrementTapCount
  | clearAll
  | setSecretKey (version : Nat) (key : List Nat)
  | saveTapCountOnly
  | saveLinkOnly
  | saveFull
  deriving Repr

/-- Apply one store operation. -/
def applyOp (s : StorageState) : StoreOp → StorageState
  | .addLink p => (Storage.addLink s p).1
  | .incrementTapCount => Storage.incrementTapCount s
  | .clearAll => Storage.clearAll s
  | .setSecretKey v k => Storage.setSecretKey s v k
  | .saveTapCountOnly => Storage.saveTapCountOnly s
  | .saveLinkOnly => Storage.saveLinkOnly s
  | .saveFull => Storage.saveNow s

/-- Apply a sequence of store operations. -/
def runOps (s : StorageState) (ops : List StoreOp) : StorageState :=
  ops.foldl applyOp s

/-- Demonstration device UID (the spec's scenario 1 id). -/
def demoUid : List Nat := [0xA1, 0xB2, 0xC3, 0xD4, 0xE5, 0xF6, 1, 2, 3, 4, 5, 6]

/-- Demonstration peer UID (the spec's scenario 2 peer). -/
def demoPeer : List Nat := [0x51, 2, 3, 4, 5, 6, 7, 8, 9, 10, 11, 12]

/-- A second demonstration peer. -/
def demoPeer2 : List Nat := [0x77, 1, 1, 2, 2, 3, 3, 4, 4, 5, 5, 6]

/-- An erased/invalid NVM region: header of all-ones bytes (fails the
magic check on load), payload immaterial. -/
def invalidNvm : PersistImageV1 :=
  { header :=
      { magic := 0xFFFFFFFF, version := 0xFFFF, length := 0xFFFF,
        crc32 := 0xFFFFFFFF },
    payload := zeroPayload }

/-- A freshly initialized store state (what `begin` produces from an
invalid image with `demoUid` as the hardware UID). -/
def demoState : StorageState := Storage.begin invalidNvm demoUid

/-- A store state whose links array is completely full: 64 distinct
nonzero slots, `linkCount = 64`. -/
def fullState : StorageState :=
  let p := { zeroPayload with
    linkCount := 64,
    links := (List.range 64).map (fun i => (i + 1) :: List.replicate 11 2) }
  { image := stampImage p, nvm := stampImage p, dirty := false,
    lastLinkIndex := 0, linkCountChanged := false }

/-- A store state with 63 recorded links (one below the cap). -/
def almostFullState : StorageState :=
  let p := { zeroPayload with
    linkCount := 63,
    links := (List.range 64).map
      (fun i => if i < 63 then (i + 1) :: List.replicate 11 2
        else List.replicate 12 0) }
  { image := stampImage p, nvm := stampImage p, dirty := false,
    lastLinkIndex := 0, linkCountChanged := false }

/-- The 64-digit all-zero key hex of the claim's `PROVISION_KEY`
command. -/
def zeros64Hex : List Char := List.replicate 64 '0'

/-- A 64-digit key hex whose last byte is nonzero. -/
def key1Hex : List Char := List.replicate 62 '0' ++ ['0', '1']

/-- The claim's `SIGN_STATE` nonce, as the command token. -/
def deadbeefHex : List Char := ['d', 'e', 'a', 'd', 'b', 'e', 'e', 'f']

/-- A concrete stand-in for the external HMAC primitive, used to
instantiate closed statements (the theorems quantify over the
primitive). -/
def demoHmac (key msg : List Nat) : List Nat := key ++ msg

/-- Demonstration UIDs agreeing on their first four bytes (the 32 race
bits) and differing only beyond them; `raceUidBig` is the numerically
larger 96-bit magnitude. -/
def raceUidBig : List Nat := [1, 2, 3, 4, 9, 0, 0, 0, 0, 0, 0, 1]

/-- See `raceUidBig`. -/
def raceUidSmall : List Nat := [1, 2, 3, 4, 5, 0, 0, 0, 0, 0, 0, 2]

/-- A provisioned payload with some recorded state (the shape of the
spec's scenario 4/5 state: two taps, one link, key version 1, a
nonzero key). -/
def signedDemoPayload : PersistPayloadV1 :=
  { zeroPayload with
    selfId := demoUid, totalTapCount := 2, linkCount := 1,
    keyVersion := 1,
    secretKey := List.replicate 31 0 ++ [1],
    links := zeroPayload.links.set 0 demoPeer }

/-- A connected tap-link state with the master role (negotiation
finished, no failures yet). -/
def tlConnMaster : TapLinkState :=
  { state := .Connected, stateStartTime := 0, lastLineChangeTime := 0,
    lastLineState := true, connectionJustDetected := false,
    negotiationJustCompleted := false, lastPulseTime := 0,
    isPulsing := false, pulseStartTime := 0, negotiationBitIndex := 32,
    bitSlotStartTime := 0, waitingForSync := false, syncSent := true,
    randomSeed := 0, roleKnown := true, isMaster := true,
    peerReady := true, lastCommandTime := 0, commandFailures := 0 }

/-- A connected tap-link state with the slave role. -/
def tlConnSlave : TapLinkState := { tlConnMaster with isMaster := false }

/-- A released line (peer absent or idle): every sample reads HIGH. -/
def highLine (_t : Nat) : Bool := true

/-- Poll environment at a given time with a released line and no peer
activity. -/
def idleEnv (t : Nat) : PollEnv :=
  { now := t, line := true, now2 := t, negLow := fun _ => false,
    tieHigh := true }

/-- One `CHECK_READY` exchange of the master over the released line of
an absent peer. -/
def masterStep (tl : TapLinkState) : TapLinkState :=
  (masterSendCommand highLine tl CHECK_READY 0).1

/-! ## Helper lemmas -/

/-- A decoded hex string has twice the length of its byte output. -/
theorem hexPairs_length :
    ∀ (l : List Char) (bs : List Nat), hexPairs l = some bs →
      l.length = 2 * bs.length
  | [], bs, h => by
      simp only [hexPairs, Option.some.injEq] at h
      subst h; rfl
  | _ :: [], _, h => by simp [hexPairs] at h
  | c1 :: c2 :: rest, bs, h => by
      simp only [hexPairs] at h
      split at h
      · exact absurd h (by simp)
      · obtain ⟨bs', hrest, rfl⟩ := Option.map_eq_some'.mp h
        have ih := hexPairs_length rest bs' hrest
        simp [List.length, ih]; omega

/-- After setting slot `i` to `x`, any scan of the first `k > i` slots
finds `x`. -/
theorem any_take_set (l : List (List Nat)) (i k : Nat) (x : List Nat)
    (hik : i < k) (hil : i < l.length) :
    ((l.set i x).take k).any (fun q => q == x) = true := by
  rw [List.any_eq_true]
  have hlen : i < ((l.set i x).take k).length := by
    simp only [List.length_take, List.length_set]
    omega
  have hset : i < (l.set i x).length := by simpa
  refine ⟨((l.set i x).take k)[i], List.getElem_mem _, ?_⟩
  have h1 : ((l.set i x).take k)[i] = (l.set i x)[i] :=
    List.getElem_take (l.set i x)
  rw [h1, List.getElem_set_self _]
  exact beq_self_eq_true x

/-- A freshly stamped image always validates. -/
theorem loadValid_stampImage (p : PersistPayloadV1) :
    Storage.loadValid (stampImage p) = true := by
  simp [Storage.loadValid, stampImage]

/-! ## Claims about the persistent store -/

/-- C10: `clearAll` leaves `selfId` byte-for-byte unchanged, zeroes
every other payload field (`totalTapCount`, `linkCount`, `keyVersion`,
all link slots, the 32-byte secret key), marks the state dirty and
performs a full save (which stamps the header, writes the whole
container to NVM and clears the dirty flag). -/
theorem C10_clear_all (s : StorageState) :
    (Storage.clearAll s).image.payload =
      { zeroPayload with selfId := s.image.payload.selfId } ∧
    (Storage.clearAll s).image =
      stampImage { zeroPayload with selfId := s.image.payload.selfId } ∧
    (Storage.clearAll s).nvm = (Storage.clearAll s).image ∧
    (Storage.clearAll s).dirty = false ∧
    Storage.clearAll s =
      Storage.saveNow (Storage.markDirty { s with image :=
        { s.image with payload :=
            { zeroPayload with selfId := s.image.payload.selfId } } }) :=
  ⟨rfl, rfl, rfl, rfl, rfl⟩

/-- C9: `addLink` is idempotent: after any `addLink p` call the peer is
found by `hasLink p`; and when the peer was already present, `addLink`
reports `AlreadyPresent` (`false`) and leaves the whole store state —
in particular `linkCount` and the links array — unchanged. -/
theorem C9_add_link_idempotent (s : StorageState) (p : List Nat)
    (hlen : s.image.payload.links.length = MAX_LINKS) :
    Storage.hasLink (Storage.addLink s p).1.image.payload p = true ∧
    (Storage.hasLink s.image.payload p = true →
      (Storage.addLink s p).2 = false ∧ (Storage.addLink s p).1 = s) := by
  by_cases h : Storage.hasLink s.image.payload p
  · constructor
    · simp [Storage.addLink, h]
    · intro _
      simp [Storage.addLink, h]
  · have h' : Storage.hasLink s.image.payload p = false := by
      simpa using h
    constructor
    · simp only [Storage.addLink, h', Bool.false_eq_true, if_false]
      by_cases hc : s.image.payload.linkCount ≥ MAX_LINKS
      · simp only [hc, if_true, Storage.hasLink, Storage.markDirty]
        apply any_take_set
        · have : s.image.payload.linkCount % MAX_LINKS < MAX_LINKS :=
            Nat.mod_lt _ (by decide)
          split <;> omega
        · rw [hlen]
          exact Nat.mod_lt _ (by decide)
      · simp only [hc, if_false, Storage.hasLink, Storage.markDirty]
        apply any_take_set
        · split <;> omega
        · omega
    · intro hcontra
      rw [hcontra] at h'
      exact absurd h' (by simp)

/-- Every single store operation preserves the `linkCount ≤ MAX_LINKS`
bound. -/
theorem linkCount_applyOp (s : StorageState) (op : StoreOp)
    (h : s.image.payload.linkCount ≤ MAX_LINKS) :
    (applyOp s op).image.payload.linkCount ≤ MAX_LINKS := by
  cases op with
  | addLink p =>
      simp only [applyOp, Storage.addLink]
      split
      · exact h
      · simp only [Storage.markDirty]
        split <;> (simp_all [MAX_LINKS]; try omega)
  | incrementTapCount =>
      simpa [applyOp, Storage.incrementTapCount, Storage.markDirty] using h
  | clearAll =>
      simp [applyOp, Storage.clearAll, Storage.saveNow, Storage.markDirty,
        zeroPayload, MAX_LINKS]
  | setSecretKey v k =>
      simpa [applyOp, Storage.setSecretKey, Storage.saveNow,
        Storage.markDirty] using h
  | saveTapCountOnly =>
      simpa [applyOp, Storage.saveTapCountOnly] using h
  | saveLinkOnly =>
      simpa [applyOp, Storage.saveLinkOnly] using h
  | saveFull =>
      simpa [applyOp, Storage.saveNow] using h

/-- The bound is preserved by arbitrary operation sequences. -/
theorem linkCount_runOps :
    ∀ (ops : List StoreOp) (s : StorageState),
      s.image.payload.linkCount ≤ MAX_LINKS →
      (runOps s ops).image.payload.linkCount ≤ MAX_LINKS
  | [], _, h => h
  | op :: ops, s, h =>
      linkCount_runOps ops (applyOp s op) (linkCount_applyOp s op h)

/-- C8: `linkCount` never exceeds `MAX_LINKS = 64` across any sequence
of store operations; at `linkCount = 63` an `addLink` of a new peer
returns `AddedNew` and sets the count to 64; at `linkCount = 64` a
further `addLink` of a new peer still returns `AddedNew` but writes the
peer at index `linkCount % MAX_LINKS = 0` and leaves the count at
64. -/
theorem C8_link_count_bounded :
    (∀ (s : StorageState) (ops : List StoreOp),
        s.image.payload.linkCount ≤ MAX_LINKS →
        (runOps s ops).image.payload.linkCount ≤ MAX_LINKS) ∧
    (∀ (s : StorageState) (p : List Nat),
        s.image.payload.linkCount = MAX_LINKS - 1 →
        Storage.hasLink s.image.payload p = false →
        (Storage.addLink s p).2 = true ∧
        (Storage.addLink s p).1.image.payload.linkCount = MAX_LINKS) ∧
    (∀ (s : StorageState) (p : List Nat),
        s.image.payload.linkCount = MAX_LINKS →
        Storage.hasLink s.image.payload p = false →
        (Storage.addLink s p).2 = true ∧
        (Storage.addLink s p).1.image.payload.linkCount = MAX_LINKS ∧
        (Storage.addLink s p).1.image.payload.links =
          s.image.payload.links.set 0 p ∧
        (Storage.addLink s p).1.lastLinkIndex = 0) := by
  refine ⟨fun s ops h => linkCount_runOps ops s h, ?_, ?_⟩
  · intro s p hcount hnew
    simp [Storage.addLink, hnew, Storage.markDirty, hcount, MAX_LINKS]
  · intro s p hcount hnew
    simp [Storage.addLink, hnew, Storage.markDirty, hcount, MAX_LINKS]

/-- Witness for C8 at concrete inputs: the invariant along a concrete
operation sequence from the fresh state, the 63 → 64 boundary on
`almostFullState`, and the wrap-to-index-0 behavior on `fullState`. -/
theorem C8_link_count_bounded_witness :
    (demoState.image.payload.linkCount ≤ MAX_LINKS ∧
      (runOps demoState
        [.addLink demoPeer, .incrementTapCount, .saveTapCountOnly,
          .saveLinkOnly]).image.payload.linkCount ≤ MAX_LINKS) ∧
    (almostFullState.image.payload.linkCount = MAX_LINKS - 1 ∧
      Storage.hasLink almostFullState.image.payload demoPeer = false ∧
      (Storage.addLink almostFullState demoPeer).2 = true ∧
      (Storage.addLink almostFullState demoPeer).1.image.payload.linkCount
        = MAX_LINKS) ∧
    (fullState.image.payload.linkCount = MAX_LINKS ∧
      Storage.hasLink fullState.image.payload demoPeer = false ∧
      (Storage.addLink fullState demoPeer).2 = true ∧
      (Storage.addLink fullState demoPeer).1.image.payload.linkCount
        = MAX_LINKS ∧
      (Storage.addLink fullState demoPeer).1.image.payload.links =
        fullState.image.payload.links.set 0 demoPeer ∧
      (Storage.addLink fullState demoPeer).1.lastLinkIndex = 0) := by
  refine ⟨⟨by decide, C8_link_count_bounded.1 demoState _ (by decide)⟩,
    ⟨by decide, by decide,
      C8_link_count_bounded.2.1 almostFullState demoPeer (by decide)
        (by decide)⟩,
    ⟨by decide, by decide,
      C8_link_count_bounded.2.2 fullState demoPeer (by decide)
        (by decide)⟩⟩

/-- C9 witness at concrete inputs: a fresh state with full-length links
array; the double-add on `demoPeer`. -/
theorem C9_add_link_idempotent_witness :
    demoState.image.payload.links.length = MAX_LINKS ∧
    (Storage.addLink demoState demoPeer).1.image.payload.links.length
      = MAX_LINKS ∧
    Storage.hasLink
      (Storage.addLink demoState demoPeer).1.image.payload demoPeer
      = true ∧
    (Storage.hasLink
        (Storage.addLink demoState demoPeer).1.image.payload demoPeer
        = true →
      (Storage.addLink (Storage.addLink demoState demoPeer).1 demoPeer).2
        = false ∧
      (Storage.addLink (Storage.addLink demoState demoPeer).1 demoPeer).1
        = (Storage.addLink demoState demoPeer).1) := by
  refine ⟨by decide, by decide,
    (C9_add_link_idempotent demoState demoPeer (by decide)).1,
    fun _ =>
      (C9_add_link_idempotent (Storage.addLink demoState demoPeer).1
        demoPeer (by decide)).2 (by decide)⟩

/-- C7: `begin` silently resets on any invalid image — the payload is
zeroed, `selfId` is captured from the hardware UID source, the header
(magic, version, length, CRC over the new payload) is stamped and the
container written, leaving a validating NVM image and a clean dirty
flag; and when the image is valid but its `selfId` is all-zero, the
UID is captured and saved immediately. -/
theorem C7_begin_recovery (nvm0 : PersistImageV1) (uid : List Nat) :
    (Storage.loadValid nvm0 = false →
      Storage.begin nvm0 uid =
        { image := stampImage { zeroPayload with selfId := uid },
          nvm := stampImage { zeroPayload with selfId := uid },
          dirty := false, lastLinkIndex := 0,
          linkCountChanged := false } ∧
      Storage.loadValid (Storage.begin nvm0 uid).nvm = true) ∧
    (Storage.loadValid nvm0 = true →
      Storage.isUidAllZero nvm0.payload.selfId = true →
      Storage.begin nvm0 uid =
        { image := stampImage { nvm0.payload with selfId := uid },
          nvm := stampImage { nvm0.payload with selfId := uid },
          dirty := false, lastLinkIndex := 0,
          linkCountChanged := false } ∧
      Storage.loadValid (Storage.begin nvm0 uid).nvm = true) := by
  constructor
  · intro hinv
    have h1 : Storage.begin nvm0 uid =
        { image := stampImage { zeroPayload with selfId := uid },
          nvm := stampImage { zeroPayload with selfId := uid },
          dirty := false, lastLinkIndex := 0,
          linkCountChanged := false } := by
      simp [Storage.begin, hinv, stampImage]
    exact ⟨h1, by rw [h1]; exact loadValid_stampImage _⟩
  · intro hval hzero
    have h1 : Storage.begin nvm0 uid =
        { image := stampImage { nvm0.payload with selfId := uid },
          nvm := stampImage { nvm0.payload with selfId := uid },
          dirty := false, lastLinkIndex := 0,
          linkCountChanged := false } := by
      simp [Storage.begin, hval, hzero, Storage.saveNow, Storage.markDirty,
        stampImage]
    exact ⟨h1, by rw [h1]; exact loadValid_stampImage _⟩

/-- C7 witness: recovery from the erased region, and UID capture on a
validly stamped image whose `selfId` is all-zero. -/
theorem C7_begin_recovery_witness :
    (Storage.loadValid invalidNvm = false ∧
      Storage.begin invalidNvm demoUid =
        { image := stampImage { zeroPayload with selfId := demoUid },
          nvm := stampImage { zeroPayload with selfId := demoUid },
          dirty := false, lastLinkIndex := 0,
          linkCountChanged := false } ∧
      Storage.loadValid (Storage.begin invalidNvm demoUid).nvm = true) ∧
    (Storage.loadValid (stampImage zeroPayload) = true ∧
      Storage.isUidAllZero (stampImage zeroPayload).payload.selfId
        = true ∧
      Storage.begin (stampImage zeroPayload) demoUid =
        { image := stampImage { zeroPayload with selfId := demoUid },
          nvm := stampImage { zeroPayload with selfId := demoUid },
          dirty := false, lastLinkIndex := 0,
          linkCountChanged := false } ∧
      Storage.loadValid
        (Storage.begin (stampImage zeroPayload) demoUid).nvm = true) := by
  have hinv : Storage.loadValid invalidNvm = false := by decide
  have hval : Storage.loadValid (stampImage zeroPayload) = true :=
    loadValid_stampImage _
  have hzero : Storage.isUidAllZero (stampImage zeroPayload).payload.selfId
      = true := by decide
  have ha := (C7_begin_recovery invalidNvm demoUid).1 hinv
  have hb := (C7_begin_recovery (stampImage zeroPayload) demoUid).2
    hval hzero
  exact ⟨⟨hinv, ha.1, ha.2⟩, ⟨hval, hzero, hb.1, hb.2⟩⟩

/-- C6 (amended): a full save always yields a validating image; a fast
save yields a validating image provided the NVM header is stamped
(magic, version, length — true after any `begin`) and its own field
writes bring the NVM payload in line with the in-memory payload, i.e.
nothing else was mutated since the last save.  (The orchestrator pairs
every mutation with its matching save, satisfying this condition; the
bare store API does not enforce it, see the counterexample.) -/
theorem C6_save_paths_validate :
    (∀ s : StorageState, Storage.loadValid (Storage.saveNow s).nvm = true) ∧
    (∀ s : StorageState,
        s.nvm.header.magic = STORAGE_MAGIC →
        s.nvm.header.version = STORAGE_VERSION →
        s.nvm.header.length = PAYLOAD_SIZE →
        (Storage.saveTapCountOnly s).nvm.payload = s.image.payload →
        Storage.loadValid (Storage.saveTapCountOnly s).nvm = true) ∧
    (∀ s : StorageState,
        s.nvm.header.magic = STORAGE_MAGIC →
        s.nvm.header.version = STORAGE_VERSION →
        s.nvm.header.length = PAYLOAD_SIZE →
        (Storage.saveLinkOnly s).nvm.payload = s.image.payload →
        Storage.loadValid (Storage.saveLinkOnly s).nvm = true) := by
  refine ⟨fun s => ?_, fun s h1 h2 h3 h4 => ?_, fun s h1 h2 h3 h4 => ?_⟩
  · simp [Storage.saveNow, Storage.loadValid]
  · have hm : (Storage.saveTapCountOnly s).nvm.header.magic =
        s.nvm.header.magic := rfl
    have hv : (Storage.saveTapCountOnly s).nvm.header.version =
        s.nvm.header.version := rfl
    have hl : (Storage.saveTapCountOnly s).nvm.header.length =
        s.nvm.header.length := rfl
    have hc : (Storage.saveTapCountOnly s).nvm.header.crc32 =
        calcCrc32 (payloadBytes s.image.payload) := rfl
    simp [Storage.loadValid, hm, hv, hl, hc, h1, h2, h3, h4]
  · have hm : (Storage.saveLinkOnly s).nvm.header.magic =
        s.nvm.header.magic := rfl
    have hv : (Storage.saveLinkOnly s).nvm.header.version =
        s.nvm.header.version := rfl
    have hl : (Storage.saveLinkOnly s).nvm.header.length =
        s.nvm.header.length := rfl
    have hc : (Storage.saveLinkOnly s).nvm.header.crc32 =
        calcCrc32 (payloadBytes s.image.payload) := rfl
    simp [Storage.loadValid, hm, hv, hl, hc, h1, h2, h3, h4]

/-- C6 witness: the fast saves validate when run right after the
mutation they persist (tap-count save after `incrementTapCount`, link
save after `addLink`), from the fresh state. -/
theorem C6_save_paths_validate_witness :
    Storage.loadValid (Storage.saveNow demoState).nvm = true ∧
    (Storage.saveTapCountOnly
        (Storage.incrementTapCount demoState)).nvm.payload =
      (Storage.incrementTapCount demoState).image.payload ∧
    Storage.loadValid (Storage.saveTapCountOnly
      (Storage.incrementTapCount demoState)).nvm = true ∧
    (Storage.saveLinkOnly
        ((Storage.addLink demoState demoPeer).1)).nvm.payload =
      ((Storage.addLink demoState demoPeer).1).image.payload ∧
    Storage.loadValid (Storage.saveLinkOnly
      ((Storage.addLink demoState demoPeer).1)).nvm = true := by
  have htap : (Storage.saveTapCountOnly
      (Storage.incrementTapCount demoState)).nvm.payload =
      (Storage.incrementTapCount demoState).image.payload := by decide
  have hlink : (Storage.saveLinkOnly
      ((Storage.addLink demoState demoPeer).1)).nvm.payload =
      ((Storage.addLink demoState demoPeer).1).image.payload := by decide
  refine ⟨C6_save_paths_validate.1 demoState,
    htap,
    C6_save_paths_validate.2.1 (Storage.incrementTapCount demoState)
      (by decide) (by decide) (by decide) htap,
    hlink,
    C6_save_paths_validate.2.2 ((Storage.addLink demoState demoPeer).1)
      (by decide) (by decide) (by decide) hlink⟩

/-- C6 counterexample: a reachable store state from which a fast save
produces an image that fails reload validation.  From the freshly
initialized store, `addLink demoPeer` (a mutation the tap-count fast
path does not persist) followed by `incrementTapCount` and
`saveTapCountOnly` writes a CRC computed over the in-memory payload
(which contains the link) next to an NVM payload that does not, so the
loader's CRC check fails — refuting "an image produced by any save
path passes the loader's validation when reloaded". -/
theorem C6_counterexample :
    Storage.loadValid (Storage.saveTapCountOnly (Storage.incrementTapCount
      ((Storage.addLink (Storage.begin invalidNvm demoUid) demoPeer).1))).nvm
      = false := by
  set_option maxRecDepth 10000 in decide

/-! ## Claims about the signing command surface -/

/-- C1 counterexample: `PROVISION_KEY 1 <64 hex zeros>` is acknowledged
and stores version 1 with the all-zero key, but the following
`SIGN_STATE deadbeef` emits the error event `no_key` instead of
`SIGNED_STATE`: `Storage::hasSecretKey` treats an all-zero key as not
provisioned regardless of `keyVersion`. -/
theorem C1_counterexample :
    (cmdProvisionKey demoState 1 zeros64Hex).2 = .ack 1 ∧
    (cmdProvisionKey demoState 1 zeros64Hex).1.image.payload.keyVersion
      = 1 ∧
    cmdSignState demoHmac
      (cmdProvisionKey demoState 1 zeros64Hex).1.image.payload
      deadbeefHex = .errNoKey := by
  refine ⟨by decide, by decide, by decide⟩

/-- C1 (amended): after `PROVISION_KEY` with a valid version and a key
that is not all-zero, `SIGN_STATE deadbeef` succeeds and emits the
`SIGNED_STATE` event carrying the HMAC of the message the firmware
builds over the provisioned state — not the `no_key` error.  (The
all-zero key of the original claim is rejected as unprovisioned, see
the counterexample.) -/
theorem C1_sign_after_provisioning
    (hm : List Nat → List Nat → List Nat) (s : StorageState)
    (v : Int) (keyHex : List Char) (key : List Nat)
    (hv1 : 0 < v) (hv2 : v ≤ 255)
    (hkey : hexToBytes keyHex 32 = some key)
    (hnz : key.any (fun b => b != 0) = true) :
    (cmdProvisionKey s v keyHex).2 = .ack v.toNat ∧
    cmdSignState hm (cmdProvisionKey s v keyHex).1.image.payload
        deadbeefHex =
      .signed s.image.payload.selfId deadbeefHex
        s.image.payload.totalTapCount
        (if s.image.payload.linkCount > MAX_LINKS then MAX_LINKS
          else s.image.payload.linkCount)
        (v.toNat % 256)
        (hm key (buildSignMsg
          { s.image.payload with
            keyVersion := v.toNat % 256, secretKey := key }
          [0xde, 0xad, 0xbe, 0xef])) := by
  have hv3 : ¬(v ≤ 0 ∨ v > 255) := by omega
  have hvn : v.toNat % 256 = v.toNat := by omega
  have hvnz : (v.toNat % 256 == 0) = false := by
    simp only [beq_eq_false_iff_ne, ne_eq]
    omega
  simp only [cmdProvisionKey, hkey, if_neg hv3]
  refine ⟨by trivial, ?_⟩
  have hpay : (Storage.setSecretKey s (v.toNat % 256) key).image.payload =
      { s.image.payload with
        keyVersion := v.toNat % 256, secretKey := key } := rfl
  rw [hpay]
  have hkeyed : Storage.hasSecretKey
      { s.image.payload with
        keyVersion := v.toNat % 256, secretKey := key } = true := by
    simp [Storage.hasSecretKey, hvnz, hnz]
  simp only [cmdSignState, hkeyed, Bool.true_eq_false, not_true_eq_false,
    if_false, ite_false]
  norm_num [deadbeefHex]
  rfl

/-- C1 witness: the amended theorem at the concrete inputs — a key hex
whose last byte is 1, version 1, the fresh store state. -/
theorem C1_sign_after_provisioning_witness :
    (0 : Int) < 1 ∧ (1 : Int) ≤ 255 ∧
    hexToBytes key1Hex 32 = some (List.replicate 31 0 ++ [1]) ∧
    (List.replicate 31 0 ++ [1]).any (fun b => b != 0) = true ∧
    ((cmdProvisionKey demoState 1 key1Hex).2 = .ack (1 : Int).toNat ∧
      cmdSignState demoHmac
          (cmdProvisionKey demoState 1 key1Hex).1.image.payload
          deadbeefHex =
        .signed demoState.image.payload.selfId deadbeefHex
          demoState.image.payload.totalTapCount
          (if demoState.image.payload.linkCount > MAX_LINKS then MAX_LINKS
            else demoState.image.payload.linkCount)
          ((1 : Int).toNat % 256)
          (demoHmac (List.replicate 31 0 ++ [1]) (buildSignMsg
            { demoState.image.payload with
              keyVersion := (1 : Int).toNat % 256,
              secretKey := List.replicate 31 0 ++ [1] }
            [0xde, 0xad, 0xbe, 0xef]))) :=
  ⟨by decide, by decide, by decide, by decide,
    C1_sign_after_provisioning demoHmac demoState 1 key1Hex
      (List.replicate 31 0 ++ [1]) (by decide) (by decide) (by decide)
      (by decide)⟩

/-- C2: for a provisioned key and any nonce of 1..32 bytes (2..64 hex
digits, even), `SIGN_STATE` emits the `SIGNED_STATE` event whose tag is
the HMAC primitive applied to the 32-byte secret and exactly the
canonical byte layout of spec §6 (`selfId ‖ nonce ‖ totalTapCount u32
LE ‖ linkCount u16 LE ‖ first linkCount peer ids); and two calls with
the same nonce on the same state produce the identical event
(determinism). -/
theorem C2_sign_state_layout
    (hm : List Nat → List Nat → List Nat) (p : PersistPayloadV1)
    (nonceHex : List Char) (nonce : List Nat)
    (hkeyed : Storage.hasSecretKey p = true)
    (hlc : p.linkCount ≤ MAX_LINKS)
    (h0 : nonceHex.length ≠ 0)
    (heven : nonceHex.length % 2 = 0)
    (hlen : nonceHex.length ≤ 64)
    (hdec : hexToBytes nonceHex (nonceHex.length / 2) = some nonce) :
    cmdSignState hm p nonceHex =
      .signed p.selfId nonceHex p.totalTapCount p.linkCount p.keyVersion
        (hm p.secretKey (specSignedLayout p nonce)) ∧
    1 ≤ nonce.length ∧ nonce.length ≤ 32 ∧
    (∀ r₁ r₂ : SignEvent, r₁ = cmdSignState hm p nonceHex →
      r₂ = cmdSignState hm p nonceHex → r₁ = r₂) := by
  have hnlen : nonceHex.length = 2 * nonce.length := by
    have := hdec
    simp only [hexToBytes] at this
    split at this
    · exact absurd this (by simp)
    · exact hexPairs_length nonceHex nonce this
  have hclamp : ¬(p.linkCount > MAX_LINKS) := by omega
  have hmsg : buildSignMsg p nonce = specSignedLayout p nonce := by
    simp [buildSignMsg, specSignedLayout, if_neg hclamp]
  have hguard : ¬(nonceHex.length = 0 ∨ nonceHex.length % 2 ≠ 0 ∨
      nonceHex.length > 64) := by omega
  refine ⟨?_, by omega, by omega, fun r₁ r₂ h₁ h₂ => h₁.trans h₂.symm⟩
  simp only [cmdSignState, hkeyed, Bool.true_eq_false, not_true_eq_false,
    if_false, ite_false, if_neg hguard, hdec, hmsg, if_neg hclamp]

/-- C2 witness: the theorem at the concrete provisioned payload and the
nonce `deadbeef`. -/
theorem C2_sign_state_layout_witness :
    Storage.hasSecretKey signedDemoPayload = true ∧
    signedDemoPayload.linkCount ≤ MAX_LINKS ∧
    deadbeefHex.length ≠ 0 ∧ deadbeefHex.length % 2 = 0 ∧
    deadbeefHex.length ≤ 64 ∧
    hexToBytes deadbeefHex (deadbeefHex.length / 2) =
      some [0xde, 0xad, 0xbe, 0xef] ∧
    (cmdSignState demoHmac signedDemoPayload deadbeefHex =
      .signed signedDemoPayload.selfId deadbeefHex
        signedDemoPayload.totalTapCount signedDemoPayload.linkCount
        signedDemoPayload.keyVersion
        (demoHmac signedDemoPayload.secretKey
          (specSignedLayout signedDemoPayload
            [0xde, 0xad, 0xbe, 0xef]))) :=
  ⟨by decide, by decide, by decide, by decide, by decide, by decide,
    (C2_sign_state_layout demoHmac signedDemoPayload deadbeefHex
      [0xde, 0xad, 0xbe, 0xef] (by decide) (by decide) (by decide)
      (by decide) (by decide) (by decide)).1⟩

/-! ## Claims about the tap link engine -/

/-- One `poll` call never leaves the `Connected` state: the source's
`Connected` case is empty. -/
theorem poll_connected (id : List Nat) (e : PollEnv) (tl : TapLinkState)
    (h : tl.state = .Connected) : (poll id e tl).state = .Connected := by
  by_cases hp : tl.isPulsing
  · simp only [poll, hp, if_true]
    split <;> simpa using h
  · by_cases hl : e.line ≠ tl.lastLineState
    · simp [poll, hp, hl, h]
    · simp [poll, hp, hl, h]

/-- Iterated polling never leaves `Connected`. -/
theorem pollFold_connected (id : List Nat) :
    ∀ (envs : List PollEnv) (tl : TapLinkState),
      tl.state = .Connected →
      (envs.foldl (fun t e => poll id e t) tl).state = .Connected
  | [], _, h => h
  | e :: envs, tl, h =>
      pollFold_connected id envs (poll id e tl) (poll_connected id e tl h)

/-- C3 (the claimed slave idle timeout does not exist in the code): a
tap link in the `Connected` state stays `Connected` across every
sequence of `poll` calls, whatever line levels and however much time
the environments span — in particular a slave that receives no command
for more than `SLAVE_IDLE_TIMEOUT_US = 2 000 000 µs` never drops back
to Idle.  The constant is declared in tap_link.h but never read; the
`Connected` case of `poll` is empty, and the slave-side command
handlers write no state-machine field. -/
theorem C3_slave_idle_timeout_missing :
    (∀ (id : List Nat) (envs : List PollEnv) (tl : TapLinkState),
        tl.state = .Connected →
        (envs.foldl (fun t e => poll id e t) tl).state = .Connected) ∧
    SLAVE_IDLE_TIMEOUT_US = 2000000 :=
  ⟨fun id envs tl h => pollFold_connected id envs tl h, rfl⟩

/-- C3 witness: a connected slave polled at time 0 and again
3 000 000 µs later (far beyond the claimed 2 000 000 µs idle window)
with a quiet line is still `Connected`. -/
theorem C3_slave_idle_timeout_missing_witness :
    tlConnSlave.state = .Connected ∧ tlConnSlave.isMaster = false ∧
    ((([idleEnv 0, idleEnv 3000000]).foldl
        (fun t e => poll demoPeer e t) tlConnSlave).state = .Connected) :=
  ⟨by decide, by decide,
    C3_slave_idle_timeout_missing.1 demoPeer [idleEnv 0, idleEnv 3000000]
      tlConnSlave (by decide)⟩

/-- C4 (the claimed byte-level timeout handling is dead code):
`receiveByte` ignores its timeout argument and reports success for
every line trace and start time, so a byte-level receive timeout can
never occur on the master.  Concretely, with the peer absent (line
constantly HIGH, all samples read 1) a `CHECK_READY` exchange returns
the byte `0xFF`, which `masterSendCommand` treats as a successful
response: it resets `commandFailures` to 0 (and sets `peerReady`
false), and even after three such exchanges the master is still
`Connected` with zero recorded failures, never dropping to Idle. -/
theorem C4_receive_never_times_out :
    (∀ (line : Nat → Bool) (t : Nat), (receiveByte line t).2.2 = true) ∧
    (masterSendCommand highLine tlConnMaster CHECK_READY 0).2.1 = 0xFF ∧
    (masterSendCommand highLine tlConnMaster CHECK_READY 0).1.peerReady
      = false ∧
    (masterStep^[3] tlConnMaster).state = .Connected ∧
    (masterStep^[3] tlConnMaster).commandFailures = 0 :=
  ⟨fun _ _ => rfl, by decide, by decide, by decide, by decide⟩

/-- Bits-from values are bounded by `2 ^ fuel`. -/
theorem bitsFrom_lt (x : List Nat) :
    ∀ (fuel i : Nat), bitsFrom x i fuel < 2 ^ fuel
  | 0, _ => by simp [bitsFrom]
  | fuel + 1, i => by
      have ih := bitsFrom_lt x fuel (i + 1)
      have hpow : (2 : Nat) ^ (fuel + 1) = 2 ^ fuel + 2 ^ fuel := by ring
      cases hb : negBit x i <;> simp [bitsFrom, hb] <;> omega

/-- A device that has left the race loop can no longer cause any
master conclusion: its peer only sees LOW levels it drives itself. -/
theorem raceAux_inactive (a b : List Nat) :
    ∀ (fuel i : Nat) (aIn bIn : Bool), aIn = false ∨ bIn = false →
      raceAux a b i fuel aIn bIn = (false, false)
  | 0, _, _, _, _ => rfl
  | fuel + 1, i, aIn, bIn, h => by
      rcases h with rfl | rfl
      · cases hb : negBit b i <;> cases bIn <;>
          simp [raceAux, hb,
            raceAux_inactive a b fuel (i + 1) _ _ (Or.inl rfl)]
      · cases ha : negBit a i <;> cases aIn <;>
          simp [raceAux, ha,
            raceAux_inactive a b fuel (i + 1) _ _ (Or.inr rfl)]

/-- The race from slot `i` with both devices active decides exactly by
comparing the remaining bit strings as binary numbers, MSB first. -/
theorem raceAux_spec (a b : List Nat) :
    ∀ (fuel i : Nat),
      raceAux a b i fuel true true =
        (decide (bitsFrom b i fuel < bitsFrom a i fuel),
          decide (bitsFrom a i fuel < bitsFrom b i fuel))
  | 0, i => by simp [raceAux, bitsFrom]
  | fuel + 1, i => by
      have ih := raceAux_spec a b fuel (i + 1)
      have hA := bitsFrom_lt a fuel (i + 1)
      have hB := bitsFrom_lt b fuel (i + 1)
      cases ha : negBit a i <;> cases hb : negBit b i
      · -- both bits 0: both drive, line LOW, nobody decides
        have hr : raceAux a b i (fuel + 1) true true =
            raceAux a b (i + 1) fuel true true := by
          simp [raceAux, ha, hb]
        rw [hr, ih]
        simp only [bitsFrom, ha, hb, Bool.toNat_false, Nat.zero_mul,
          Nat.zero_add]
      · -- a bit 0 drives, b bit 1 sees LOW: b concludes master
        have hr : raceAux a b i (fuel + 1) true true =
            ((raceAux a b (i + 1) fuel true false).1,
              true || (raceAux a b (i + 1) fuel true false).2) := by
          simp [raceAux, ha, hb]
        rw [hr, raceAux_inactive a b fuel (i + 1) true false (Or.inr rfl)]
        simp only [bitsFrom, ha, hb, Bool.toNat_false, Bool.toNat_true,
          Nat.zero_mul, Nat.zero_add, Nat.one_mul, Bool.or_false]
        have h1 : ¬(2 ^ fuel + bitsFrom b (i + 1) fuel <
            bitsFrom a (i + 1) fuel) := by omega
        have h2 : bitsFrom a (i + 1) fuel <
            2 ^ fuel + bitsFrom b (i + 1) fuel := by omega
        simp [h1, h2]
      · -- a bit 1 sees LOW from b's drive: a concludes master
        have hr : raceAux a b i (fuel + 1) true true =
            (true || (raceAux a b (i + 1) fuel false true).1,
              (raceAux a b (i + 1) fuel false true).2) := by
          simp [raceAux, ha, hb]
        rw [hr, raceAux_inactive a b fuel (i + 1) false true (Or.inl rfl)]
        simp only [bitsFrom, ha, hb, Bool.toNat_false, Bool.toNat_true,
          Nat.zero_mul, Nat.zero_add, Nat.one_mul, Bool.or_false]
        have h1 : bitsFrom b (i + 1) fuel <
            2 ^ fuel + bitsFrom a (i + 1) fuel := by omega
        have h2 : ¬(2 ^ fuel + bitsFrom a (i + 1) fuel <
            bitsFrom b (i + 1) fuel) := by omega
        simp [h1, h2]
      · -- both bits 1: both release, line HIGH, nobody decides
        have hr : raceAux a b i (fuel + 1) true true =
            raceAux a b (i + 1) fuel true true := by
          simp [raceAux, ha, hb]
        rw [hr, ih]
        simp only [bitsFrom, ha, hb, Bool.toNat_true, Nat.one_mul,
          Nat.add_lt_add_iff_left]

/-- C5 (amended): the aligned wired-AND race decides by the first 32
UID bits only (`NEGOTIATION_BITS`, bytes 0..3, MSB first): for all
UIDs, the pair of in-loop master conclusions equals the comparison of
the two 32-bit prefixes — the device with the numerically larger
prefix (and only it) concludes master inside the loop, within at most
32 bit slots; when the prefixes are equal (even for distinct 96-bit
UIDs) neither concludes and the tie-breaker runs instead.  At most one
device ever concludes master in the loop. -/
theorem C5_race_elects_larger_prefix (a b : List Nat) :
    runRace a b =
      (decide (bitsFrom b 0 NEGOTIATION_BITS < bitsFrom a 0 NEGOTIATION_BITS),
        decide (bitsFrom a 0 NEGOTIATION_BITS <
          bitsFrom b 0 NEGOTIATION_BITS)) ∧
    (¬((runRace a b).1 = true ∧ (runRace a b).2 = true)) ∧
    ((runRace a b).1 = true ↔
      bitsFrom b 0 NEGOTIATION_BITS < bitsFrom a 0 NEGOTIATION_BITS) ∧
    ((runRace a b).2 = true ↔
      bitsFrom a 0 NEGOTIATION_BITS < bitsFrom b 0 NEGOTIATION_BITS) := by
  have h := raceAux_spec a b NEGOTIATION_BITS 0
  refine ⟨h, ?_, ?_, ?_⟩ <;>
    (rw [show runRace a b = raceAux a b 0 NEGOTIATION_BITS true true
        from rfl, h]
     simp only [Prod.fst, Prod.snd, decide_eq_true_eq]
     try omega)

/-- C5 counterexample: two distinct 96-bit UIDs whose first 32 bits
agree (`raceUidBig` is the numerically larger big-endian magnitude);
neither device concludes master anywhere in the 32-slot race, so the
election is *not* decided within `N_neg_bits` slots and the larger
96-bit UID does not become master through the bit race — refuting the
claim for such pairs. -/
theorem C5_counterexample :
    raceUidBig ≠ raceUidSmall ∧
    uidVal raceUidSmall < uidVal raceUidBig ∧
    runRace raceUidBig raceUidSmall = (false, false) ∧
    runRace raceUidSmall raceUidBig = (false, false) := by
  refine ⟨by decide, by decide, by decide, by decide⟩

end Bokaka
